import Mathlib

/-!
Shallow embedding of `src/prompts/confirm.rs` from the `dialoguer` crate
(the `Confirm` prompt control) and proofs about its behaviour.

The Rust code drives a terminal through a small set of effectful
operations (render the prompt, hide/show the cursor, flush, clear the
line, read a line from stdin, read a char from the terminal handle).
The embedding makes these effects explicit: `interact_on` takes

  * the configuration (`Confirm`),
  * an error schedule `sched : List (Option IOErr)` giving, for each
    successive terminal/renderer operation, whether it succeeds (`none`)
    or fails with a given I/O error (`some e`); a schedule shorter than
    the run means the remaining operations succeed (`[]` = no failures),
  * the lines available on the process standard input (`stdin`), which
    is what `io::stdin().read_line` consumes in line-buffered mode,
  * the characters available on the terminal handle (`termInput`),
    which is what `term.read_char()` consumes in keystroke mode,

and returns the outcome together with the trace of operations that were
actually performed, in order.  An operation that fails is charged one
schedule slot but is not recorded in the trace (it did not take effect).
If the relevant input source is exhausted before an outcome is reached
the run is `blocked` (the real program would block waiting for input).
-/

/-- I/O errors are opaque values passed through untranslated. -/
abbrev IOErr := Nat

/-- The terminal / renderer operations performed by `Confirm::interact_on`.
`confirmPrompt` is `render.confirm_prompt(prompt, default)`,
`confirmPromptSelection` is `render.confirm_prompt_selection(prompt, sel)`,
`stdinReadLine l` records a successful `io::stdin().read_line` that read `l`,
`termReadChar c` records a successful `term.read_char()` that read `c`. -/
inductive TermOp where
  | confirmPrompt (prompt : String) (default : Option Bool)
  | confirmPromptSelection (prompt : String) (sel : Bool)
  | hideCursor
  | showCursor
  | flush
  | clearLine
  | stdinReadLine (line : String)
  | termReadChar (c : Char)
deriving DecidableEq

/-- Result of a run: a definitive boolean outcome, a propagated I/O
error, or blocked waiting for input that never comes. -/
inductive Outcome where
  | ok (b : Bool)
  | err (e : IOErr)
  | blocked
deriving DecidableEq

/-- The `Confirm` prompt configuration (`struct Confirm` minus the theme,
whose effect is abstracted into the renderer operations of the trace). -/
structure Confirm where
  prompt : String
  default : Bool
  show_default : Bool
  disable_default : Bool
  wait_for_newline : Bool
deriving DecidableEq

/-- Rust `Confirm::new()` / `Confirm::with_theme(..)`: the initial configuration. -/
def Confirm.new : Confirm :=
  { prompt := ""
    default := true
    show_default := true
    disable_default := false
    wait_for_newline := false }

/-- Setter `with_prompt` (Rust mutates `self.prompt` and returns `&mut self`;
modelled as a functional update). -/
def Confirm.with_prompt (c : Confirm) (prompt : String) : Confirm :=
  { c with prompt := prompt }

/-- Setter `wait_for_newline` (named `set_wait_for_newline` here because the
field projection already uses the source name). -/
def Confirm.set_wait_for_newline (c : Confirm) (wait : Bool) : Confirm :=
  { c with wait_for_newline := wait }

/-- Setter `default` (named `set_default` here because the field projection
already uses the source name). -/
def Confirm.set_default (c : Confirm) (val : Bool) : Confirm :=
  { c with default := val }

/-- Setter `show_default` (named `set_show_default` here because the field
projection already uses the source name). -/
def Confirm.set_show_default (c : Confirm) (val : Bool) : Confirm :=
  { c with show_default := val }

/-- Setter `disable_default` (named `set_disable_default` here because the
field projection already uses the source name). -/
def Confirm.set_disable_default (c : Confirm) (val : Bool) : Confirm :=
  { c with disable_default := val }

/-- Rust `str::trim_end`: remove trailing whitespace.  (`String.trimRight`
exists but does not reduce in the kernel, so the same function is written
over the character list; whitespace is `Char.isWhitespace`, which agrees
with Rust on the ASCII whitespace the prompt ever sees.) -/
def strTrimEnd (s : String) : String :=
  ⟨(s.data.reverse.dropWhile Char.isWhitespace).reverse⟩

/-- Rust `str::to_lowercase`, character-wise (agrees with Rust on ASCII,
which is all the classification below compares against). -/
def strLower (s : String) : String :=
  ⟨s.data.map Char.toLower⟩

/-- The line-buffered classification from `interact_on`
(`match &*input_buf.trim_end().to_lowercase() { .. }`): `some rv` when the
buffer decides the outcome, `none` when it is invalid and the loop
continues.  Note: an empty trimmed buffer is only an outcome when
`disable_default` is off; otherwise it falls into the catch-all arm. -/
def lineClass (c : Confirm) (buf : String) : Option Bool :=
  match strLower (strTrimEnd buf) with
  | "y" | "yes" => some true
  | "n" | "no" => some false
  | "" => if !c.disable_default then some c.default else none
  | _ => none

/-- The keystroke classification from `interact_on`
(`match input { 'y' | 'Y' => .., 'n' | 'N' => .., '\n' | '\r' if .. }`). -/
def charClass (c : Confirm) (input : Char) : Option Bool :=
  match input with
  | 'y' | 'Y' => some true
  | 'n' | 'N' => some false
  | '\n' | '\r' => if !c.disable_default then some c.default else none
  | _ => none

/-- The effective default passed to the renderer:
`if self.show_default { Some(self.default) } else { None }`. -/
def effDefault (c : Confirm) : Option Bool :=
  if c.show_default then some c.default else none

/-- Run a fixed block of (non-reading) operations in order against the
error schedule.  Returns the remaining schedule (or the first error) and
the operations that were performed. -/
def runOps : List (Option IOErr) → List TermOp →
    Except IOErr (List (Option IOErr)) × List TermOp
  | sched, [] => (.ok sched, [])
  | sched, op :: ops =>
    match sched.headD none with
    | some e => (.error e, [])
    | none =>
      let r := runOps sched.tail ops
      (r.1, op :: r.2)

/-- The line-buffered (`wait_for_newline`) loop of `interact_on`:
read a line from stdin into the buffer, classify the whole buffer;
on a valid buffer show the cursor, flush and return; on an invalid
buffer re-render the prompt, clear the buffer and continue. -/
def lineLoop (c : Confirm) (d : Option Bool) :
    List String → List (Option IOErr) → String → Outcome × List TermOp
  | [], _, _ => (.blocked, [])
  | l :: rest, sched, buf =>
    match sched.headD none with
    | some e => (.err e, [])
    | none =>
      match lineClass c (buf ++ l) with
      | some rv =>
        match runOps sched.tail [.showCursor, .flush] with
        | (.ok _, tr) => (.ok rv, .stdinReadLine l :: tr)
        | (.error e, tr) => (.err e, .stdinReadLine l :: tr)
      | none =>
        match runOps sched.tail [.confirmPrompt c.prompt d] with
        | (.ok sched2, tr) =>
          let r := lineLoop c d rest sched2 ""
          (r.1, .stdinReadLine l :: (tr ++ r.2))
        | (.error e, tr) => (.err e, .stdinReadLine l :: tr)

/-- The keystroke (default) loop of `interact_on`: read a char from the
terminal handle and classify it; on a valid char clear the line, render
the selection, show the cursor, flush and return; on an invalid char
silently continue. -/
def charLoop (c : Confirm) :
    List Char → List (Option IOErr) → Outcome × List TermOp
  | [], _ => (.blocked, [])
  | ch :: rest, sched =>
    match sched.headD none with
    | some e => (.err e, [])
    | none =>
      match charClass c ch with
      | some rv =>
        match runOps sched.tail
            [.clearLine, .confirmPromptSelection c.prompt rv,
             .showCursor, .flush] with
        | (.ok _, tr) => (.ok rv, .termReadChar ch :: tr)
        | (.error e, tr) => (.err e, .termReadChar ch :: tr)
      | none =>
        let r := charLoop c rest sched.tail
        (r.1, .termReadChar ch :: r.2)

/-- Rust `Confirm::interact_on`: render the initial prompt, hide the cursor,
flush, then run the loop selected by `wait_for_newline`.  Any operation
failure is propagated immediately as `err`. -/
def interact_on (c : Confirm) (sched : List (Option IOErr))
    (stdin : List String) (termInput : List Char) : Outcome × List TermOp :=
  let d := effDefault c
  match runOps sched [.confirmPrompt c.prompt d, .hideCursor, .flush] with
  | (.error e, tr) => (.err e, tr)
  | (.ok sched1, tr) =>
    if c.wait_for_newline then
      let r := lineLoop c d stdin sched1 ""
      (r.1, tr ++ r.2)
    else
      let r := charLoop c termInput sched1
      (r.1, tr ++ r.2)

/-! ### Helper lemmas -/

theorem headD_eq_getD {α : Type} (s : List α) (d : α) :
    s.headD d = s.getD 0 d := by
  cases s <;> rfl

theorem getD_tail {α : Type} (s : List α) (j : Nat) (d : α) :
    s.tail.getD j d = s.getD (j + 1) d := by
  cases s <;> rfl

theorem getD_drop {α : Type} (s : List α) (n j : Nat) (d : α) :
    (s.drop n).getD j d = s.getD (n + j) d := by
  simp [List.getD_eq_getElem?_getD, List.getElem?_drop]

theorem str_nil_append (s : String) : "" ++ s = s := rfl

/-- If all scheduled responses succeed, `runOps` performs every
operation and passes the (dropped) schedule on. -/
theorem runOps_ok (ops : List TermOp) (s s' : List (Option IOErr))
    (tr : List TermOp) (h : runOps s ops = (.ok s', tr)) :
    tr = ops ∧ s' = s.drop ops.length ∧
      ∀ j < ops.length, s.getD j none = none := by
  induction ops generalizing s s' tr with
  | nil =>
    simp only [runOps, Prod.mk.injEq, Except.ok.injEq] at h
    obtain ⟨rfl, rfl⟩ := h
    exact ⟨rfl, by simp, by simp⟩
  | cons op ops ih =>
    simp only [runOps] at h
    cases hh : s.headD none with
    | some e => rw [hh] at h; simp at h
    | none =>
      rw [hh] at h
      simp only [Prod.mk.injEq] at h
      obtain ⟨h1, h2⟩ := h
      cases hr : runOps s.tail ops with
      | mk r1 tr2 =>
        rw [hr] at h1 h2
        cases r1 with
        | error e => simp at h1
        | ok s2 =>
          simp only [Except.ok.injEq] at h1
          obtain ⟨g1, h3, h4⟩ := ih s.tail s2 tr2 hr
          subst h1 h2
          refine ⟨by rw [g1], ?_, ?_⟩
          · rw [h3]
            calc List.drop ops.length s.tail
                = List.drop ops.length (s.drop 1) := by rw [List.drop_one]
              _ = s.drop (1 + ops.length) := by rw [List.drop_drop]
              _ = List.drop (op :: ops).length s := by simp [Nat.add_comm]
          · intro j hj
            simp only [List.length_cons] at hj
            cases j with
            | zero => rw [← headD_eq_getD]; exact hh
            | succ j' =>
              rw [← getD_tail]
              exact h4 j' (by omega)

/-- A failed `runOps`: the error is exactly the scheduled one at the
first failing slot, every earlier slot succeeded, and the performed
trace is the prefix of the block before the failure. -/
theorem runOps_error (ops : List TermOp) (s : List (Option IOErr))
    (e : IOErr) (tr : List TermOp) (h : runOps s ops = (.error e, tr)) :
    s.getD tr.length none = some e ∧
      (∀ j < tr.length, s.getD j none = none) ∧
      tr = ops.take tr.length ∧ tr.length < ops.length := by
  induction ops generalizing s tr with
  | nil => simp only [runOps, Prod.mk.injEq] at h; exact absurd h.1 (by simp)
  | cons op ops ih =>
    simp only [runOps] at h
    cases hh : s.headD none with
    | some e' =>
      rw [hh] at h
      simp only [Prod.mk.injEq, Except.error.injEq] at h
      obtain ⟨rfl, rfl⟩ := h
      refine ⟨?_, by simp, by simp, by simp⟩
      rw [List.length_nil, ← headD_eq_getD]
      exact hh
    | none =>
      rw [hh] at h
      simp only [Prod.mk.injEq] at h
      obtain ⟨h1, h2⟩ := h
      cases hr : runOps s.tail ops with
      | mk r1 tr2 =>
        rw [hr] at h1 h2
        cases r1 with
        | ok s2 => simp at h1
        | error e' =>
          simp only [Except.error.injEq] at h1
          subst h1 h2
          obtain ⟨g1, g2, g3, g4⟩ := ih s.tail tr2 hr
          refine ⟨?_, ?_, ?_, by simpa using g4⟩
          · simpa [getD_tail] using g1
          · intro j hj
            cases j with
            | zero => rw [← headD_eq_getD]; exact hh
            | succ j' =>
              rw [← getD_tail]
              exact g2 j' (by simpa using hj)
          · simp only [List.length_cons, List.take_succ_cons]
            exact congrArg (List.cons op) g3

/-- Every operation `runOps` records comes from its operation block. -/
theorem runOps_mem (ops : List TermOp) (s : List (Option IOErr))
    (op : TermOp) (h : op ∈ (runOps s ops).2) : op ∈ ops := by
  induction ops generalizing s with
  | nil => simp [runOps] at h
  | cons o ops ih =>
    simp only [runOps] at h
    cases hh : s.headD none with
    | some e => rw [hh] at h; simp at h
    | none =>
      rw [hh] at h
      simp only [List.mem_cons] at h
      rcases h with rfl | h
      · exact List.mem_cons_self _ _
      · exact List.mem_cons_of_mem _ (ih s.tail h)

/-- One step of the line-buffered loop when no failure is scheduled and
the buffer is fresh: a valid line finishes, an invalid line re-renders
the prompt and recurses with a cleared buffer. -/
theorem lineLoop_nil_cons (c : Confirm) (d : Option Bool) (l : String)
    (rest : List String) :
    lineLoop c d (l :: rest) [] "" =
      match lineClass c l with
      | some rv => (.ok rv, [.stdinReadLine l, .showCursor, .flush])
      | none =>
        ((lineLoop c d rest [] "").1,
         .stdinReadLine l :: .confirmPrompt c.prompt d ::
           (lineLoop c d rest [] "").2) := rfl

/-- One step of the keystroke loop when no failure is scheduled: a valid
char finishes, an invalid char is discarded with no output. -/
theorem charLoop_nil_cons (c : Confirm) (ch : Char) (rest : List Char) :
    charLoop c (ch :: rest) [] =
      match charClass c ch with
      | some rv =>
        (.ok rv,
         [.termReadChar ch, .clearLine, .confirmPromptSelection c.prompt rv,
          .showCursor, .flush])
      | none =>
        ((charLoop c rest []).1, .termReadChar ch :: (charLoop c rest []).2) :=
  rfl

/-- A successful line-buffered loop run: the trace is some reads and
prompt re-renders followed by exactly `show_cursor; flush`. -/
theorem lineLoop_ok_shape (c : Confirm) (d : Option Bool) :
    ∀ (ls : List String) (s : List (Option IOErr)) (buf : String)
      (b : Bool) (tr : List TermOp),
      lineLoop c d ls s buf = (.ok b, tr) →
      ∃ m, tr = m ++ [.showCursor, .flush] ∧
        ∀ op ∈ m, (∃ l, op = .stdinReadLine l) ∨
          op = .confirmPrompt c.prompt d := by
  intro ls
  induction ls with
  | nil => intro s buf b tr h; simp [lineLoop] at h
  | cons l rest ih =>
    intro s buf b tr h
    simp only [lineLoop] at h
    cases hh : s.headD none with
    | some e => rw [hh] at h; simp at h
    | none =>
      rw [hh] at h
      cases hcl : lineClass c (buf ++ l) with
      | some rv =>
        rw [hcl] at h
        cases hro : runOps s.tail [.showCursor, .flush] with
        | mk r1 tr2 =>
          rw [hro] at h
          cases r1 with
          | error e => simp at h
          | ok s2 =>
            simp only [Prod.mk.injEq, Outcome.ok.injEq] at h
            obtain ⟨rfl, rfl⟩ := h
            obtain ⟨htr, -, -⟩ := runOps_ok _ _ _ _ hro
            subst htr
            exact ⟨[.stdinReadLine l], rfl, by simp⟩
      | none =>
        rw [hcl] at h
        cases hro : runOps s.tail [.confirmPrompt c.prompt d] with
        | mk r1 tr2 =>
          rw [hro] at h
          cases r1 with
          | error e => simp at h
          | ok s2 =>
            simp only [Prod.mk.injEq] at h
            obtain ⟨h1, h2⟩ := h
            obtain ⟨htr, -, -⟩ := runOps_ok _ _ _ _ hro
            subst htr
            cases hrec : lineLoop c d rest s2 "" with
            | mk o2 trr =>
              rw [hrec] at h1 h2
              simp only at h1 h2
              obtain ⟨m, hm, hprop⟩ :=
                ih s2 "" b trr (by rw [hrec, ← h1])
              subst h2 hm
              refine ⟨.stdinReadLine l :: .confirmPrompt c.prompt d :: m,
                by simp, ?_⟩
              intro op hop
              simp only [List.mem_cons] at hop
              rcases hop with rfl | rfl | hop
              · exact Or.inl ⟨l, rfl⟩
              · exact Or.inr rfl
              · exact hprop op hop

/-- A successful keystroke loop run: the trace is some reads followed by
exactly `clear_line; confirm_prompt_selection; show_cursor; flush`. -/
theorem charLoop_ok_shape (c : Confirm) :
    ∀ (cs : List Char) (s : List (Option IOErr)) (b : Bool)
      (tr : List TermOp),
      charLoop c cs s = (.ok b, tr) →
      ∃ m, tr = m ++ [.clearLine, .confirmPromptSelection c.prompt b,
          .showCursor, .flush] ∧
        ∀ op ∈ m, ∃ ch, op = .termReadChar ch := by
  intro cs
  induction cs with
  | nil => intro s b tr h; simp [charLoop] at h
  | cons ch rest ih =>
    intro s b tr h
    simp only [charLoop] at h
    cases hh : s.headD none with
    | some e => rw [hh] at h; simp at h
    | none =>
      rw [hh] at h
      cases hcl : charClass c ch with
      | some rv =>
        simp only [hcl] at h
        cases hro : runOps s.tail
            [.clearLine, .confirmPromptSelection c.prompt rv,
             .showCursor, .flush] with
        | mk r1 tr2 =>
          rw [hro] at h
          cases r1 with
          | error e => simp at h
          | ok s2 =>
            simp only [Prod.mk.injEq, Outcome.ok.injEq] at h
            obtain ⟨rfl, rfl⟩ := h
            obtain ⟨htr, -, -⟩ := runOps_ok _ _ _ _ hro
            subst htr
            exact ⟨[.termReadChar ch], rfl, by simp⟩
      | none =>
        rw [hcl] at h
        simp only [Prod.mk.injEq] at h
        obtain ⟨h1, h2⟩ := h
        cases hrec : charLoop c rest s.tail with
        | mk o2 trr =>
          rw [hrec] at h1 h2
          simp only at h1 h2
          obtain ⟨m, hm, hprop⟩ := ih s.tail b trr (by rw [hrec, ← h1])
          subst h2 hm
          refine ⟨.termReadChar ch :: m, by simp, ?_⟩
          intro op hop
          simp only [List.mem_cons] at hop
          rcases hop with rfl | hop
          · exact ⟨ch, rfl⟩
          · exact hprop op hop

theorem tail_drop_one {α : Type} (s : List α) : s.tail.drop 1 = s.drop 2 := by
  rw [← List.drop_one, List.drop_drop]

/-- A failed line-buffered loop run: the returned error is exactly the
first scheduled failure (all earlier slots succeeded), and the cursor
was never shown, except possibly as the very last performed operation
(when the final flush after a successful `show_cursor` failed). -/
theorem lineLoop_err_shape (c : Confirm) (d : Option Bool) :
    ∀ (ls : List String) (s : List (Option IOErr)) (buf : String)
      (e : IOErr) (tr : List TermOp),
      lineLoop c d ls s buf = (.err e, tr) →
      s.getD tr.length none = some e ∧
        (∀ j < tr.length, s.getD j none = none) ∧
        (.showCursor ∉ tr ∨
          ∃ t', tr = t' ++ [.showCursor] ∧ .showCursor ∉ t') := by
  intro ls
  induction ls with
  | nil => intro s buf e tr h; simp [lineLoop] at h
  | cons l rest ih =>
    intro s buf e tr h
    simp only [lineLoop] at h
    cases hh : s.headD none with
    | some e' =>
      simp only [hh, Prod.mk.injEq, Outcome.err.injEq] at h
      obtain ⟨rfl, rfl⟩ := h
      refine ⟨?_, by simp, by simp⟩
      rw [List.length_nil, ← headD_eq_getD]
      exact hh
    | none =>
      simp only [hh] at h
      cases hcl : lineClass c (buf ++ l) with
      | some rv =>
        simp only [hcl] at h
        cases hro : runOps s.tail [.showCursor, .flush] with
        | mk r1 tr2 =>
          rw [hro] at h
          cases r1 with
          | ok s2 => simp at h
          | error e2 =>
            simp only [Prod.mk.injEq, Outcome.err.injEq] at h
            obtain ⟨rfl, rfl⟩ := h
            obtain ⟨g1, g2, g3, g4⟩ := runOps_error _ _ _ _ hro
            refine ⟨?_, ?_, ?_⟩
            · simpa [getD_tail] using g1
            · intro j hj
              simp only [List.length_cons] at hj
              cases j with
              | zero => rw [← headD_eq_getD]; exact hh
              | succ j' => rw [← getD_tail]; exact g2 j' (by omega)
            · simp only [List.length_cons, List.length_nil] at g4
              have h0 : tr2.length = 0 ∨ tr2.length = 1 := by omega
              rcases h0 with h0 | h0
              · have : tr2 = [] := List.length_eq_zero.mp h0
                subst this
                exact Or.inl (by simp)
              · have : tr2 = List.take 1 [.showCursor, .flush] := by
                  rw [← h0]; exact g3
                rw [show List.take 1
                    [TermOp.showCursor, TermOp.flush] = [.showCursor]
                  from rfl] at this
                subst this
                exact Or.inr ⟨[.stdinReadLine l], rfl, by simp⟩
      | none =>
        simp only [hcl] at h
        cases hro : runOps s.tail [.confirmPrompt c.prompt d] with
        | mk r1 tr2 =>
          rw [hro] at h
          cases r1 with
          | error e2 =>
            simp only [Prod.mk.injEq, Outcome.err.injEq] at h
            obtain ⟨rfl, rfl⟩ := h
            obtain ⟨g1, g2, g3, g4⟩ := runOps_error _ _ _ _ hro
            simp only [List.length_cons, List.length_nil] at g4
            have h0 : tr2 = [] := List.length_eq_zero.mp (by omega)
            subst h0
            refine ⟨?_, ?_, Or.inl (by simp)⟩
            · simpa [getD_tail] using g1
            · intro j hj
              simp only [List.length_cons, List.length_nil] at hj
              cases j with
              | zero => rw [← headD_eq_getD]; exact hh
              | succ j' => omega
          | ok s2 =>
            simp only [Prod.mk.injEq] at h
            obtain ⟨h1, h2⟩ := h
            obtain ⟨htr, hs2, g4⟩ := runOps_ok _ _ _ _ hro
            subst htr
            cases hrec : lineLoop c d rest s2 "" with
            | mk o2 trr =>
              rw [hrec] at h1 h2
              simp only at h1 h2
              obtain ⟨i1, i2, i3⟩ := ih s2 "" e trr (by rw [hrec, h1])
              subst h2
              have hs2' : s2 = s.drop 2 := by
                rw [hs2]; simp only [List.length_cons, List.length_nil]
                exact tail_drop_one s
              refine ⟨?_, ?_, ?_⟩
              · rw [hs2', getD_drop, Nat.add_comm] at i1
                have hidx : (TermOp.stdinReadLine l ::
                    ([TermOp.confirmPrompt c.prompt d] ++ trr)).length =
                    trr.length + 2 := by
                  simp only [List.length_cons, List.length_append,
                    List.length_nil]
                  omega
                rw [hidx]
                exact i1
              · intro j hj
                simp only [List.length_cons, List.length_append,
                  List.length_nil] at hj
                match j with
                | 0 => rw [← headD_eq_getD]; exact hh
                | 1 =>
                  rw [show (1 : Nat) = 0 + 1 from rfl, ← getD_tail]
                  exact g4 0 (by simp)
                | (j' + 2) =>
                  have := i2 j' (by omega)
                  rw [hs2', getD_drop] at this
                  simpa [Nat.add_comm] using this
              · rcases i3 with i3 | ⟨t', ht', hnt⟩
                · exact Or.inl (by simp [i3])
                · refine Or.inr ⟨.stdinReadLine l :: .confirmPrompt c.prompt d
                    :: t', by simp [ht'], by simp [hnt]⟩

/-- A failed keystroke loop run: the returned error is exactly the
first scheduled failure (all earlier slots succeeded), and the cursor
was never shown, except possibly as the very last performed operation
(when the final flush after a successful `show_cursor` failed). -/
theorem charLoop_err_shape (c : Confirm) :
    ∀ (cs : List Char) (s : List (Option IOErr)) (e : IOErr)
      (tr : List TermOp),
      charLoop c cs s = (.err e, tr) →
      s.getD tr.length none = some e ∧
        (∀ j < tr.length, s.getD j none = none) ∧
        (.showCursor ∉ tr ∨
          ∃ t', tr = t' ++ [.showCursor] ∧ .showCursor ∉ t') := by
  intro cs
  induction cs with
  | nil => intro s e tr h; simp [charLoop] at h
  | cons ch rest ih =>
    intro s e tr h
    simp only [charLoop] at h
    cases hh : s.headD none with
    | some e' =>
      simp only [hh, Prod.mk.injEq, Outcome.err.injEq] at h
      obtain ⟨rfl, rfl⟩ := h
      refine ⟨?_, by simp, by simp⟩
      rw [List.length_nil, ← headD_eq_getD]
      exact hh
    | none =>
      simp only [hh] at h
      cases hcl : charClass c ch with
      | some rv =>
        simp only [hcl] at h
        cases hro : runOps s.tail
            [.clearLine, .confirmPromptSelection c.prompt rv,
             .showCursor, .flush] with
        | mk r1 tr2 =>
          rw [hro] at h
          cases r1 with
          | ok s2 => simp at h
          | error e2 =>
            simp only [Prod.mk.injEq, Outcome.err.injEq] at h
            obtain ⟨rfl, rfl⟩ := h
            obtain ⟨g1, g2, g3, g4⟩ := runOps_error _ _ _ _ hro
            refine ⟨?_, ?_, ?_⟩
            · simpa [getD_tail] using g1
            · intro j hj
              simp only [List.length_cons] at hj
              cases j with
              | zero => rw [← headD_eq_getD]; exact hh
              | succ j' => rw [← getD_tail]; exact g2 j' (by omega)
            · simp only [List.length_cons, List.length_nil] at g4
              have h0 : tr2.length = 0 ∨ tr2.length = 1 ∨ tr2.length = 2 ∨
                  tr2.length = 3 := by omega
              rcases h0 with h0 | h0 | h0 | h0
              · have h1 : tr2 = [] := List.length_eq_zero.mp h0
                subst h1
                exact Or.inl (by simp)
              · have h1 : tr2 = List.take 1 [.clearLine,
                    .confirmPromptSelection c.prompt rv, .showCursor,
                    .flush] := by rw [← h0]; exact g3
                rw [show List.take 1 [TermOp.clearLine,
                    TermOp.confirmPromptSelection c.prompt rv,
                    TermOp.showCursor, TermOp.flush] = [TermOp.clearLine]
                  from rfl] at h1
                subst h1
                exact Or.inl (by simp)
              · have h1 : tr2 = List.take 2 [.clearLine,
                    .confirmPromptSelection c.prompt rv, .showCursor,
                    .flush] := by rw [← h0]; exact g3
                rw [show List.take 2 [TermOp.clearLine,
                    TermOp.confirmPromptSelection c.prompt rv,
                    TermOp.showCursor, TermOp.flush] = [TermOp.clearLine,
                    TermOp.confirmPromptSelection c.prompt rv]
                  from rfl] at h1
                subst h1
                exact Or.inl (by simp)
              · have h1 : tr2 = List.take 3 [.clearLine,
                    .confirmPromptSelection c.prompt rv, .showCursor,
                    .flush] := by rw [← h0]; exact g3
                rw [show List.take 3 [TermOp.clearLine,
                    TermOp.confirmPromptSelection c.prompt rv,
                    TermOp.showCursor, TermOp.flush] = [TermOp.clearLine,
                    TermOp.confirmPromptSelection c.prompt rv,
                    TermOp.showCursor] from rfl] at h1
                subst h1
                refine Or.inr ⟨[.termReadChar ch, .clearLine,
                  .confirmPromptSelection c.prompt rv], rfl, by simp⟩
      | none =>
        simp only [hcl] at h
        simp only [Prod.mk.injEq] at h
        obtain ⟨h1, h2⟩ := h
        cases hrec : charLoop c rest s.tail with
        | mk o2 trr =>
          rw [hrec] at h1 h2
          simp only at h1 h2
          obtain ⟨i1, i2, i3⟩ := ih s.tail e trr (by rw [hrec, h1])
          subst h2
          refine ⟨?_, ?_, ?_⟩
          · rw [getD_tail] at i1
            simpa using i1
          · intro j hj
            simp only [List.length_cons] at hj
            cases j with
            | zero => rw [← headD_eq_getD]; exact hh
            | succ j' => rw [← getD_tail]; exact i2 j' (by omega)
          · rcases i3 with i3 | ⟨t', ht', hnt⟩
            · exact Or.inl (by simp [i3])
            · exact Or.inr ⟨.termReadChar ch :: t', by simp [ht'],
                by simp [hnt]⟩

/-- The line-buffered loop never reads from the terminal handle. -/
theorem lineLoop_no_termRead (c : Confirm) (d : Option Bool) :
    ∀ (ls : List String) (s : List (Option IOErr)) (buf : String)
      (o : Outcome) (tr : List TermOp), lineLoop c d ls s buf = (o, tr) →
      ∀ ch, .termReadChar ch ∉ tr := by
  intro ls
  induction ls with
  | nil =>
    intro s buf o tr h ch
    simp only [lineLoop, Prod.mk.injEq] at h
    rw [← h.2]
    simp
  | cons l rest ih =>
    intro s buf o tr h ch
    simp only [lineLoop] at h
    cases hh : s.headD none with
    | some e =>
      simp only [hh, Prod.mk.injEq] at h
      rw [← h.2]
      simp
    | none =>
      simp only [hh] at h
      cases hcl : lineClass c (buf ++ l) with
      | some rv =>
        simp only [hcl] at h
        cases hro : runOps s.tail [.showCursor, .flush] with
        | mk r1 tr2 =>
          rw [hro] at h
          have htr2 : ∀ op ∈ tr2, op ∈ [TermOp.showCursor, TermOp.flush] :=
            fun op hop => runOps_mem _ s.tail op (by rw [hro]; exact hop)
          cases r1 with
          | ok s2 =>
            simp only [Prod.mk.injEq] at h
            rw [← h.2]
            intro hmem
            rcases List.mem_cons.mp hmem with hx | hx
            · exact absurd hx (by simp)
            · have := htr2 _ hx
              simp at this
          | error e2 =>
            simp only [Prod.mk.injEq] at h
            rw [← h.2]
            intro hmem
            rcases List.mem_cons.mp hmem with hx | hx
            · exact absurd hx (by simp)
            · have := htr2 _ hx
              simp at this
      | none =>
        simp only [hcl] at h
        cases hro : runOps s.tail [.confirmPrompt c.prompt d] with
        | mk r1 tr2 =>
          rw [hro] at h
          have htr2 : ∀ op ∈ tr2,
              op ∈ [TermOp.confirmPrompt c.prompt d] :=
            fun op hop => runOps_mem _ s.tail op (by rw [hro]; exact hop)
          cases r1 with
          | error e2 =>
            simp only [Prod.mk.injEq] at h
            rw [← h.2]
            intro hmem
            rcases List.mem_cons.mp hmem with hx | hx
            · exact absurd hx (by simp)
            · have := htr2 _ hx
              simp at this
          | ok s2 =>
            simp only [Prod.mk.injEq] at h
            rw [← h.2]
            intro hmem
            rcases List.mem_cons.mp hmem with hx | hx
            · exact absurd hx (by simp)
            · rcases List.mem_append.mp hx with hx' | hx'
              · have := htr2 _ hx'
                simp at this
              · exact ih s2 "" _ _ rfl ch hx'

/-- The keystroke loop never reads from the process standard input. -/
theorem charLoop_no_stdinRead (c : Confirm) :
    ∀ (cs : List Char) (s : List (Option IOErr)) (o : Outcome)
      (tr : List TermOp), charLoop c cs s = (o, tr) →
      ∀ l, .stdinReadLine l ∉ tr := by
  intro cs
  induction cs with
  | nil =>
    intro s o tr h l
    simp only [charLoop, Prod.mk.injEq] at h
    rw [← h.2]
    simp
  | cons ch rest ih =>
    intro s o tr h l
    simp only [charLoop] at h
    cases hh : s.headD none with
    | some e =>
      simp only [hh, Prod.mk.injEq] at h
      rw [← h.2]
      simp
    | none =>
      simp only [hh] at h
      cases hcl : charClass c ch with
      | some rv =>
        simp only [hcl] at h
        cases hro : runOps s.tail
            [.clearLine, .confirmPromptSelection c.prompt rv,
             .showCursor, .flush] with
        | mk r1 tr2 =>
          rw [hro] at h
          have htr2 : ∀ op ∈ tr2,
              op ∈ [TermOp.clearLine,
                TermOp.confirmPromptSelection c.prompt rv,
                TermOp.showCursor, TermOp.flush] :=
            fun op hop => runOps_mem _ s.tail op (by rw [hro]; exact hop)
          cases r1 with
          | ok s2 =>
            simp only [Prod.mk.injEq] at h
            rw [← h.2]
            intro hmem
            rcases List.mem_cons.mp hmem with hx | hx
            · exact absurd hx (by simp)
            · have := htr2 _ hx
              simp at this
          | error e2 =>
            simp only [Prod.mk.injEq] at h
            rw [← h.2]
            intro hmem
            rcases List.mem_cons.mp hmem with hx | hx
            · exact absurd hx (by simp)
            · have := htr2 _ hx
              simp at this
      | none =>
        simp only [hcl, Prod.mk.injEq] at h
        rw [← h.2]
        intro hmem
        rcases List.mem_cons.mp hmem with hx | hx
        · exact absurd hx (by simp)
        · exact ih s.tail _ _ rfl l hx

theorem charClass_y (c : Confirm) : charClass c 'y' = some true := rfl

theorem charClass_Y (c : Confirm) : charClass c 'Y' = some true := rfl

theorem charClass_n (c : Confirm) : charClass c 'n' = some false := rfl

theorem charClass_N (c : Confirm) : charClass c 'N' = some false := rfl

theorem charClass_newline (c : Confirm) {ch : Char}
    (h : ch = '\n' ∨ ch = '\r') :
    charClass c ch = if !c.disable_default then some c.default else none := by
  rcases h with rfl | rfl <;> rfl

theorem lineClass_empty (c : Confirm) {l : String} (h : strTrimEnd l = "") :
    lineClass c l = if !c.disable_default then some c.default else none := by
  unfold lineClass
  rw [h]
  rfl

theorem lineClass_yes (c : Confirm) {l : String}
    (h : strLower (strTrimEnd l) = "y" ∨ strLower (strTrimEnd l) = "yes") :
    lineClass c l = some true := by
  unfold lineClass
  rcases h with h | h <;> rw [h] <;> rfl

theorem lineClass_no (c : Confirm) {l : String}
    (h : strLower (strTrimEnd l) = "n" ∨ strLower (strTrimEnd l) = "no") :
    lineClass c l = some false := by
  unfold lineClass
  rcases h with h | h <;> rw [h] <;> rfl

/-- Case split on an `interact_on` run: either the three-operation
preamble (initial render, hide cursor, flush) failed, or it succeeded,
was charged the first three scheduler slots, and the run continued with
the loop selected by `wait_for_newline`. -/
theorem interact_split (c : Confirm) (sched : List (Option IOErr))
    (stdin : List String) (ti : List Char) (o : Outcome) (tr : List TermOp)
    (h : interact_on c sched stdin ti = (o, tr)) :
    (∃ e, o = .err e ∧
       runOps sched [.confirmPrompt c.prompt (effDefault c), .hideCursor,
         .flush] = (.error e, tr)) ∨
    (∃ r : Outcome × List TermOp,
       o = r.1 ∧
       tr = [.confirmPrompt c.prompt (effDefault c), .hideCursor, .flush]
         ++ r.2 ∧
       (∀ j < 3, sched.getD j none = none) ∧
       ((c.wait_for_newline = true ∧
           lineLoop c (effDefault c) stdin (sched.drop 3) "" = r) ∨
        (c.wait_for_newline = false ∧
           charLoop c ti (sched.drop 3) = r))) := by
  simp only [interact_on] at h
  cases hro : runOps sched [.confirmPrompt c.prompt (effDefault c),
      .hideCursor, .flush] with
  | mk r1 tr0 =>
    rw [hro] at h
    cases r1 with
    | error e =>
      simp only [Prod.mk.injEq] at h
      exact Or.inl ⟨e, h.1.symm, by cases h.2; rfl⟩
    | ok s1 =>
      obtain ⟨htr0, hs1, hg⟩ := runOps_ok _ _ _ _ hro
      simp only [List.length_cons, List.length_nil] at hs1 hg
      subst htr0 hs1
      cases hw : c.wait_for_newline with
      | true =>
        rw [hw] at h
        simp only [if_true, Prod.mk.injEq] at h
        refine Or.inr ⟨lineLoop c (effDefault c) stdin (sched.drop 3) "",
          h.1.symm, by rw [← h.2], fun j hj => hg j hj, Or.inl ⟨rfl, rfl⟩⟩
      | false =>
        rw [hw] at h
        simp only [Bool.false_eq_true, if_false, Prod.mk.injEq] at h
        refine Or.inr ⟨charLoop c ti (sched.drop 3),
          h.1.symm, by rw [← h.2], fun j hj => hg j hj, Or.inr ⟨rfl, rfl⟩⟩

/-- Running `interact_on` with no scheduled failures: the preamble always
succeeds and the run is the selected loop's run after it. -/
theorem interact_nil (c : Confirm) (stdin : List String) (ti : List Char) :
    interact_on c [] stdin ti =
      if c.wait_for_newline then
        ((lineLoop c (effDefault c) stdin [] "").1,
         .confirmPrompt c.prompt (effDefault c) :: .hideCursor :: .flush ::
           (lineLoop c (effDefault c) stdin [] "").2)
      else
        ((charLoop c ti []).1,
         .confirmPrompt c.prompt (effDefault c) :: .hideCursor :: .flush ::
           (charLoop c ti []).2) := rfl

/-- Running `interact_on` with no scheduled failures, line-buffered mode. -/
theorem interact_nil_line (c : Confirm) (stdin : List String)
    (ti : List Char) (h : c.wait_for_newline = true) :
    interact_on c [] stdin ti =
      ((lineLoop c (effDefault c) stdin [] "").1,
       .confirmPrompt c.prompt (effDefault c) :: .hideCursor :: .flush ::
         (lineLoop c (effDefault c) stdin [] "").2) := by
  rw [interact_nil, h]
  simp

/-- Running `interact_on` with no scheduled failures, keystroke mode. -/
theorem interact_nil_char (c : Confirm) (stdin : List String)
    (ti : List Char) (h : c.wait_for_newline = false) :
    interact_on c [] stdin ti =
      ((charLoop c ti []).1,
       .confirmPrompt c.prompt (effDefault c) :: .hideCursor :: .flush ::
         (charLoop c ti []).2) := by
  rw [interact_nil, h]
  simp

/-- One line-buffered input step at the outcome level (no failures). -/
theorem interact_line_step (c : Confirm) (l : String) (ls : List String)
    (ti : List Char) (hw : c.wait_for_newline = true) :
    (interact_on c [] (l :: ls) ti).1 =
      match lineClass c l with
      | some rv => .ok rv
      | none => (interact_on c [] ls ti).1 := by
  rw [interact_nil_line c (l :: ls) ti hw, interact_nil_line c ls ti hw]
  simp only
  rw [lineLoop_nil_cons]
  cases lineClass c l <;> simp

/-- One keystroke input step at the outcome level (no failures). -/
theorem interact_char_step (c : Confirm) (ch : Char) (cs : List Char)
    (stdin : List String) (hw : c.wait_for_newline = false) :
    (interact_on c [] stdin (ch :: cs)).1 =
      match charClass c ch with
      | some rv => .ok rv
      | none => (interact_on c [] stdin cs).1 := by
  rw [interact_nil_char c stdin (ch :: cs) hw, interact_nil_char c stdin cs hw]
  simp only
  rw [charLoop_nil_cons]
  cases charClass c ch <;> simp

/-! ### Claims -/

/-- C1, counterexample: in line-buffered mode a definitive outcome is
reached without any clear-line and without any final confirmed-selection
render — only the cursor is shown and output flushed.  This refutes the
claim that both modes clear the input line and draw the final selection
line before returning. -/
theorem confirm_C1_counterexample :
    (interact_on { Confirm.new with wait_for_newline := true }
        [] ["y"] []).1 = .ok true ∧
    .clearLine ∉ (interact_on { Confirm.new with wait_for_newline := true }
        [] ["y"] []).2 ∧
    .confirmPromptSelection "" true ∉
      (interact_on { Confirm.new with wait_for_newline := true }
        [] ["y"] []).2 := by decide

/-- C1 (amended): on reaching a definitive outcome in immediate-keystroke
mode, `interact_on` clears the input line and asks the renderer to draw
the final confirmed-selection line (prompt text and boolean outcome),
then shows the cursor and flushes, in that order, before returning; in
line-buffered mode it only shows the cursor and flushes before
returning, with no clear-line and no confirmed-selection render. -/
theorem confirm_C1 :
    (∀ (c : Confirm) (sched : List (Option IOErr)) (stdin : List String)
       (ti : List Char) (b : Bool) (tr : List TermOp),
       c.wait_for_newline = false →
       interact_on c sched stdin ti = (.ok b, tr) →
       ∃ pre, tr = pre ++ [.clearLine, .confirmPromptSelection c.prompt b,
         .showCursor, .flush]) ∧
    (∀ (c : Confirm) (sched : List (Option IOErr)) (stdin : List String)
       (ti : List Char) (b : Bool) (tr : List TermOp),
       c.wait_for_newline = true →
       interact_on c sched stdin ti = (.ok b, tr) →
       (∃ pre, tr = pre ++ [.showCursor, .flush]) ∧
       .clearLine ∉ tr ∧
       ∀ p v, .confirmPromptSelection p v ∉ tr) := by
  constructor
  · intro c sched stdin ti b tr hw h
    rcases interact_split c sched stdin ti _ _ h with
      ⟨e, he, -⟩ | ⟨r, ho, htr, -, hbr⟩
    · simp at he
    · rcases hbr with ⟨hw', -⟩ | ⟨-, hcl⟩
      · rw [hw] at hw'; simp at hw'
      · have hc : charLoop c ti (sched.drop 3) = (.ok b, r.2) := by
          rw [hcl, ho]
        obtain ⟨m, hm, -⟩ := charLoop_ok_shape c ti (sched.drop 3) b r.2 hc
        refine ⟨[.confirmPrompt c.prompt (effDefault c), .hideCursor,
          .flush] ++ m, ?_⟩
        rw [htr, hm]
        simp
  · intro c sched stdin ti b tr hw h
    rcases interact_split c sched stdin ti _ _ h with
      ⟨e, he, -⟩ | ⟨r, ho, htr, -, hbr⟩
    · simp at he
    · rcases hbr with ⟨-, hcl⟩ | ⟨hw', -⟩
      · have hc : lineLoop c (effDefault c) stdin (sched.drop 3) "" =
            (.ok b, r.2) := by rw [hcl, ho]
        obtain ⟨m, hm, hops⟩ :=
          lineLoop_ok_shape c (effDefault c) stdin (sched.drop 3) "" b r.2 hc
        refine ⟨?_, ?_, ?_⟩
        · refine ⟨[.confirmPrompt c.prompt (effDefault c), .hideCursor,
            .flush] ++ m, ?_⟩
          rw [htr, hm]
          simp
        · rw [htr, hm]
          intro hmem
          simp only [List.mem_append, List.mem_cons, List.mem_singleton,
            List.not_mem_nil] at hmem
          rcases hmem with ((h1 | h1 | h1) | h1) | (h1 | h1) <;>
            first
              | simp at h1
              | (rcases hops _ h1 with ⟨l', hl'⟩ | hl' <;> simp at hl')
        · intro p v
          rw [htr, hm]
          intro hmem
          simp only [List.mem_append, List.mem_cons, List.mem_singleton,
            List.not_mem_nil] at hmem
          rcases hmem with ((h1 | h1 | h1) | h1) | (h1 | h1) <;>
            first
              | simp at h1
              | (rcases hops _ h1 with ⟨l', hl'⟩ | hl' <;> simp at hl')
      · rw [hw] at hw'; simp at hw'

/-- C1 witness: both parts applied to concrete runs. -/
theorem confirm_C1_witness :
    (∃ pre,
       ([.confirmPrompt "" (some true), .hideCursor, .flush,
         .termReadChar 'y', .clearLine, .confirmPromptSelection "" true,
         .showCursor, .flush] : List TermOp) =
         pre ++ [.clearLine, .confirmPromptSelection "" true, .showCursor,
           .flush]) ∧
    ((∃ pre,
       ([.confirmPrompt "" (some true), .hideCursor, .flush,
         .stdinReadLine "y", .showCursor, .flush] : List TermOp) =
         pre ++ [.showCursor, .flush]) ∧
     .clearLine ∉ ([.confirmPrompt "" (some true), .hideCursor, .flush,
         .stdinReadLine "y", .showCursor, .flush] : List TermOp) ∧
     ∀ p v, .confirmPromptSelection p v ∉
       ([.confirmPrompt "" (some true), .hideCursor, .flush,
         .stdinReadLine "y", .showCursor, .flush] : List TermOp)) :=
  ⟨confirm_C1.1 Confirm.new [] [] ['y'] true _ rfl (by decide),
   confirm_C1.2 { Confirm.new with wait_for_newline := true } [] ["y"] []
     true _ rfl (by decide)⟩

/-- C2, counterexample: in line-buffered mode the outcome is decided by a
line consumed from the process standard input (`io::stdin()`), not from
the terminal handle passed to `interact_on` — here the terminal handle
has a pending 'n' that is never read, yet the result is `true` from the
stdin line "yes".  This refutes the claim that in both modes all input
is read from the passed terminal handle. -/
theorem confirm_C2_counterexample :
    interact_on { Confirm.new with wait_for_newline := true }
        [] ["yes"] ['n'] =
      (.ok true,
       [.confirmPrompt "" (some true), .hideCursor, .flush,
        .stdinReadLine "yes", .showCursor, .flush]) ∧
    .stdinReadLine "yes" ∈
      (interact_on { Confirm.new with wait_for_newline := true }
        [] ["yes"] ['n']).2 ∧
    .termReadChar 'n' ∉
      (interact_on { Confirm.new with wait_for_newline := true }
        [] ["yes"] ['n']).2 := by decide

/-- C2 (amended): in immediate-keystroke mode every input consumed by the
interaction loop is read from the terminal handle passed to
`interact_on` (no stdin line is ever consumed); in line-buffered mode
every input is consumed from the process standard input and the passed
terminal handle is never read from. -/
theorem confirm_C2 :
    (∀ (c : Confirm) (sched : List (Option IOErr)) (stdin : List String)
       (ti : List Char) (o : Outcome) (tr : List TermOp),
       c.wait_for_newline = false →
       interact_on c sched stdin ti = (o, tr) →
       ∀ l, .stdinReadLine l ∉ tr) ∧
    (∀ (c : Confirm) (sched : List (Option IOErr)) (stdin : List String)
       (ti : List Char) (o : Outcome) (tr : List TermOp),
       c.wait_for_newline = true →
       interact_on c sched stdin ti = (o, tr) →
       ∀ ch, .termReadChar ch ∉ tr) := by
  constructor
  · intro c sched stdin ti o tr hw h l
    rcases interact_split c sched stdin ti _ _ h with
      ⟨e, -, hre⟩ | ⟨r, -, htr, -, hbr⟩
    · intro hmem
      have := runOps_mem _ sched _ (by rw [hre]; exact hmem)
      simp at this
    · rcases hbr with ⟨hw', -⟩ | ⟨-, hcl⟩
      · rw [hw] at hw'; simp at hw'
      · rw [htr]
        intro hmem
        rcases List.mem_append.mp hmem with h1 | h1
        · simp at h1
        · exact charLoop_no_stdinRead c ti (sched.drop 3) r.1 r.2
            (by rw [hcl]) l h1
  · intro c sched stdin ti o tr hw h ch
    rcases interact_split c sched stdin ti _ _ h with
      ⟨e, -, hre⟩ | ⟨r, -, htr, -, hbr⟩
    · intro hmem
      have := runOps_mem _ sched _ (by rw [hre]; exact hmem)
      simp at this
    · rcases hbr with ⟨-, hcl⟩ | ⟨hw', -⟩
      · rw [htr]
        intro hmem
        rcases List.mem_append.mp hmem with h1 | h1
        · simp at h1
        · exact lineLoop_no_termRead c (effDefault c) stdin (sched.drop 3)
            "" r.1 r.2 (by rw [hcl]) ch h1
      · rw [hw] at hw'; simp at hw'

/-- C2 witness: both parts applied to concrete runs. -/
theorem confirm_C2_witness :
    .stdinReadLine "x" ∉
      (interact_on Confirm.new [] [] ['y']).2 ∧
    .termReadChar 'x' ∉
      (interact_on { Confirm.new with wait_for_newline := true }
        [] ["y"] []).2 :=
  ⟨confirm_C2.1 Confirm.new [] [] ['y'] _ _ rfl rfl "x",
   confirm_C2.2 { Confirm.new with wait_for_newline := true } [] ["y"] []
     _ _ rfl rfl 'x'⟩

/-- C3 (confirmed): on every successful return, in both modes, the trace
is exactly `confirm_prompt; hide_cursor; flush`, then a middle section
containing neither `hide_cursor` nor `show_cursor` (only reads,
re-renders and, in keystroke mode, the final clear-line and selection
render), then `show_cursor; flush`.  Hence `hide_cursor` is called
exactly once, before the first input read, and `show_cursor` exactly
once, before the return, however many invalid inputs were consumed. -/
theorem confirm_C3 (c : Confirm) (sched : List (Option IOErr))
    (stdin : List String) (ti : List Char) (b : Bool) (tr : List TermOp)
    (h : interact_on c sched stdin ti = (.ok b, tr)) :
    ∃ mid,
      tr = [.confirmPrompt c.prompt (effDefault c), .hideCursor, .flush]
        ++ mid ++ [.showCursor, .flush] ∧
      .hideCursor ∉ mid ∧ .showCursor ∉ mid := by
  rcases interact_split c sched stdin ti _ _ h with
    ⟨e, he, -⟩ | ⟨r, ho, htr, -, hbr⟩
  · simp at he
  · rcases hbr with ⟨-, hcl⟩ | ⟨-, hcl⟩
    · have hc : lineLoop c (effDefault c) stdin (sched.drop 3) "" =
          (.ok b, r.2) := by rw [hcl, ho]
      obtain ⟨m, hm, hops⟩ :=
        lineLoop_ok_shape c (effDefault c) stdin (sched.drop 3) "" b r.2 hc
      refine ⟨m, by rw [htr, hm]; simp, ?_, ?_⟩
      · intro hmem
        rcases hops _ hmem with ⟨l', hl'⟩ | hl' <;> simp at hl'
      · intro hmem
        rcases hops _ hmem with ⟨l', hl'⟩ | hl' <;> simp at hl'
    · have hc : charLoop c ti (sched.drop 3) = (.ok b, r.2) := by
        rw [hcl, ho]
      obtain ⟨m, hm, hops⟩ := charLoop_ok_shape c ti (sched.drop 3) b r.2 hc
      refine ⟨m ++ [.clearLine, .confirmPromptSelection c.prompt b],
        by rw [htr, hm]; simp, ?_, ?_⟩
      · intro hmem
        rcases List.mem_append.mp hmem with h1 | h1
        · obtain ⟨ch, hch⟩ := hops _ h1
          simp at hch
        · simp at h1
      · intro hmem
        rcases List.mem_append.mp hmem with h1 | h1
        · obtain ⟨ch, hch⟩ := hops _ h1
          simp at hch
        · simp at h1

/-- C3 witness: the invariant at a concrete keystroke run with one
invalid keystroke before the valid one. -/
theorem confirm_C3_witness :
    ∃ mid,
      ([.confirmPrompt "" (some true), .hideCursor, .flush,
        .termReadChar 'x', .termReadChar 'n', .clearLine,
        .confirmPromptSelection "" false, .showCursor, .flush]
          : List TermOp) =
        [.confirmPrompt "" (some true), .hideCursor, .flush]
          ++ mid ++ [.showCursor, .flush] ∧
      .hideCursor ∉ mid ∧ .showCursor ∉ mid :=
  confirm_C3 Confirm.new [] [] ['x', 'n'] false
    [.confirmPrompt "" (some true), .hideCursor, .flush,
     .termReadChar 'x', .termReadChar 'n', .clearLine,
     .confirmPromptSelection "" false, .showCursor, .flush] (by decide)

/-- C4 (confirmed): with `disable_default = false`, a newline or
carriage-return keystroke (keystroke mode) or a line with empty trimmed
content (line mode) yields exactly the configured default; with
`disable_default = true` those same inputs produce no outcome and the
loop keeps consuming input, so a later valid input decides (e.g. the
keystroke stream `['\n','\n','n']` yields `false`). -/
theorem confirm_C4 :
    (∀ (c : Confirm) (ch : Char) (cs : List Char) (stdin : List String),
       c.wait_for_newline = false → c.disable_default = false →
       (ch = '\n' ∨ ch = '\r') →
       (interact_on c [] stdin (ch :: cs)).1 = .ok c.default) ∧
    (∀ (c : Confirm) (l : String) (ls : List String) (ti : List Char),
       c.wait_for_newline = true → c.disable_default = false →
       strTrimEnd l = "" →
       (interact_on c [] (l :: ls) ti).1 = .ok c.default) ∧
    (∀ (c : Confirm) (ch : Char) (cs : List Char) (stdin : List String),
       c.wait_for_newline = false → c.disable_default = true →
       (ch = '\n' ∨ ch = '\r') →
       (interact_on c [] stdin (ch :: cs)).1 =
         (interact_on c [] stdin cs).1) ∧
    (∀ (c : Confirm) (l : String) (ls : List String) (ti : List Char),
       c.wait_for_newline = true → c.disable_default = true →
       strTrimEnd l = "" →
       (interact_on c [] (l :: ls) ti).1 =
         (interact_on c [] ls ti).1) ∧
    (∀ (c : Confirm) (stdin : List String),
       c.wait_for_newline = false → c.disable_default = true →
       (interact_on c [] stdin ['\n', '\n', 'n']).1 = .ok false) := by
  refine ⟨?_, ?_, ?_, ?_, ?_⟩
  · intro c ch cs stdin hw hd hch
    rw [interact_char_step c ch cs stdin hw, charClass_newline c hch, hd]
    simp
  · intro c l ls ti hw hd hl
    rw [interact_line_step c l ls ti hw, lineClass_empty c hl, hd]
    simp
  · intro c ch cs stdin hw hd hch
    rw [interact_char_step c ch cs stdin hw, charClass_newline c hch, hd]
    simp
  · intro c l ls ti hw hd hl
    rw [interact_line_step c l ls ti hw, lineClass_empty c hl, hd]
    simp
  · intro c stdin hw hd
    rw [interact_char_step c '\n' ['\n', 'n'] stdin hw,
      charClass_newline c (Or.inl rfl), hd]
    simp only [Bool.not_true, Bool.false_eq_true, if_false]
    rw [interact_char_step c '\n' ['n'] stdin hw,
      charClass_newline c (Or.inl rfl), hd]
    simp only [Bool.not_true, Bool.false_eq_true, if_false]
    rw [interact_char_step c 'n' [] stdin hw, charClass_n]

/-- C4 witness: all five parts applied to concrete configurations. -/
theorem confirm_C4_witness :
    (interact_on Confirm.new [] [] ['\n']).1 = .ok true ∧
    (interact_on { Confirm.new with wait_for_newline := true }
       [] [" "] []).1 = .ok true ∧
    (interact_on { Confirm.new with disable_default := true }
       [] [] ['\r', 'y']).1 =
      (interact_on { Confirm.new with disable_default := true }
       [] [] ['y']).1 ∧
    (interact_on { Confirm.new with wait_for_newline := true, disable_default := true } [] ["", "no"] []).1 =
      (interact_on { Confirm.new with wait_for_newline := true, disable_default := true } [] ["no"] []).1 ∧
    (interact_on { Confirm.new with disable_default := true }
       [] [] ['\n', '\n', 'n']).1 = .ok false :=
  ⟨confirm_C4.1 Confirm.new '\n' [] [] rfl rfl (Or.inl rfl),
   confirm_C4.2.1 { Confirm.new with wait_for_newline := true }
     " " [] [] rfl rfl (by decide),
   confirm_C4.2.2.1 { Confirm.new with disable_default := true }
     '\r' ['y'] [] rfl rfl (Or.inr rfl),
   confirm_C4.2.2.2.1 { Confirm.new with wait_for_newline := true, disable_default := true } "" ["no"] [] rfl rfl (by decide),
   confirm_C4.2.2.2.2 { Confirm.new with disable_default := true }
     [] rfl rfl⟩

/-- C5 (confirmed): classification is case-insensitive.  In line mode any
line whose trimmed, lowercased content is "y" or "yes" yields `true` and
any whose content is "n" or "no" yields `false` (so "Y", "YES", "Yes",
... all work); in keystroke mode both 'y' and 'Y' yield `true` and both
'n' and 'N' yield `false`. -/
theorem confirm_C5 :
    (∀ (c : Confirm) (l : String) (ls : List String) (ti : List Char),
       c.wait_for_newline = true →
       (strLower (strTrimEnd l) = "y" ∨ strLower (strTrimEnd l) = "yes") →
       (interact_on c [] (l :: ls) ti).1 = .ok true) ∧
    (∀ (c : Confirm) (l : String) (ls : List String) (ti : List Char),
       c.wait_for_newline = true →
       (strLower (strTrimEnd l) = "n" ∨ strLower (strTrimEnd l) = "no") →
       (interact_on c [] (l :: ls) ti).1 = .ok false) ∧
    (∀ (c : Confirm) (ch : Char) (cs : List Char) (stdin : List String),
       c.wait_for_newline = false → (ch = 'y' ∨ ch = 'Y') →
       (interact_on c [] stdin (ch :: cs)).1 = .ok true) ∧
    (∀ (c : Confirm) (ch : Char) (cs : List Char) (stdin : List String),
       c.wait_for_newline = false → (ch = 'n' ∨ ch = 'N') →
       (interact_on c [] stdin (ch :: cs)).1 = .ok false) := by
  refine ⟨?_, ?_, ?_, ?_⟩
  · intro c l ls ti hw hl
    rw [interact_line_step c l ls ti hw, lineClass_yes c hl]
  · intro c l ls ti hw hl
    rw [interact_line_step c l ls ti hw, lineClass_no c hl]
  · intro c ch cs stdin hw hch
    rcases hch with rfl | rfl <;>
      rw [interact_char_step c _ cs stdin hw] <;> rfl
  · intro c ch cs stdin hw hch
    rcases hch with rfl | rfl <;>
      rw [interact_char_step c _ cs stdin hw] <;> rfl

/-- C5 witness: all four parts applied with upper-case inputs. -/
theorem confirm_C5_witness :
    (interact_on { Confirm.new with wait_for_newline := true }
       [] ["YES"] []).1 = .ok true ∧
    (interact_on { Confirm.new with wait_for_newline := true }
       [] ["No"] []).1 = .ok false ∧
    (interact_on Confirm.new [] [] ['Y']).1 = .ok true ∧
    (interact_on Confirm.new [] [] ['N']).1 = .ok false :=
  ⟨confirm_C5.1 { Confirm.new with wait_for_newline := true } "YES" [] []
     rfl (Or.inr (by decide)),
   confirm_C5.2.1 { Confirm.new with wait_for_newline := true } "No" [] []
     rfl (Or.inr (by decide)),
   confirm_C5.2.2.1 Confirm.new 'Y' [] [] rfl (Or.inr rfl),
   confirm_C5.2.2.2 Confirm.new 'N' [] [] rfl (Or.inr rfl)⟩

/-- C6 (confirmed): on invalid input the two modes differ.  In
line-buffered mode an invalid line causes exactly one re-render of the
initial prompt (same prompt text, same effective default) immediately
after the read and before the next line is read, and the run then
proceeds exactly as a fresh run on the remaining input; in keystroke
mode an invalid character adds only the read itself to the trace — no
re-render and no other terminal output — before the next character is
read.  In both modes the outcome is that of the remaining input. -/
theorem confirm_C6 :
    (∀ (c : Confirm) (l : String) (ls : List String) (ti : List Char),
       c.wait_for_newline = true → lineClass c l = none →
       lineLoop c (effDefault c) (l :: ls) [] "" =
         ((lineLoop c (effDefault c) ls [] "").1,
          .stdinReadLine l :: .confirmPrompt c.prompt (effDefault c) ::
            (lineLoop c (effDefault c) ls [] "").2) ∧
       (interact_on c [] (l :: ls) ti).1 = (interact_on c [] ls ti).1) ∧
    (∀ (c : Confirm) (ch : Char) (cs : List Char) (stdin : List String),
       c.wait_for_newline = false → charClass c ch = none →
       charLoop c (ch :: cs) [] =
         ((charLoop c cs []).1, .termReadChar ch :: (charLoop c cs []).2) ∧
       (interact_on c [] stdin (ch :: cs)).1 =
         (interact_on c [] stdin cs).1) := by
  constructor
  · intro c l ls ti hw hcl
    constructor
    · rw [lineLoop_nil_cons, hcl]
    · rw [interact_line_step c l ls ti hw, hcl]
  · intro c ch cs stdin hw hcl
    constructor
    · rw [charLoop_nil_cons, hcl]
    · rw [interact_char_step c ch cs stdin hw, hcl]

/-- C6 witness: both parts applied to concrete invalid inputs. -/
theorem confirm_C6_witness :
    (lineLoop { Confirm.new with wait_for_newline := true } (some true)
         ["zzz", "y"] [] "" =
       ((lineLoop { Confirm.new with wait_for_newline := true } (some true)
           ["y"] [] "").1,
        .stdinReadLine "zzz" :: .confirmPrompt "" (some true) ::
          (lineLoop { Confirm.new with wait_for_newline := true }
            (some true) ["y"] [] "").2) ∧
     (interact_on { Confirm.new with wait_for_newline := true }
         [] ["zzz", "y"] []).1 =
       (interact_on { Confirm.new with wait_for_newline := true }
         [] ["y"] []).1) ∧
    (charLoop Confirm.new ['x', 'n'] [] =
       ((charLoop Confirm.new ['n'] []).1,
        .termReadChar 'x' :: (charLoop Confirm.new ['n'] []).2) ∧
     (interact_on Confirm.new [] [] ['x', 'n']).1 =
       (interact_on Confirm.new [] [] ['n']).1) :=
  ⟨confirm_C6.1 { Confirm.new with wait_for_newline := true } "zzz" ["y"] []
     rfl (by decide),
   confirm_C6.2 Confirm.new 'x' ['n'] [] rfl (by decide)⟩

/-- On an error return, the error is exactly the scheduled failure of
the first failing operation (all operations before it succeeded). -/
theorem interact_err_sched (c : Confirm) (sched : List (Option IOErr))
    (stdin : List String) (ti : List Char) (e : IOErr) (tr : List TermOp)
    (h : interact_on c sched stdin ti = (.err e, tr)) :
    sched.getD tr.length none = some e ∧
      ∀ j < tr.length, sched.getD j none = none := by
  rcases interact_split c sched stdin ti _ _ h with
    ⟨e', he, hre⟩ | ⟨r, ho, htr, hg, hbr⟩
  · injection he with he'
    subst he'
    obtain ⟨g1, g2, -, -⟩ := runOps_error _ _ _ _ hre
    exact ⟨g1, g2⟩
  · have hlen : tr.length = 3 + r.2.length := by
      rw [htr]
      simp only [List.length_append, List.length_cons, List.length_nil]
    rcases hbr with ⟨-, hcl⟩ | ⟨-, hcl⟩
    · have hc : lineLoop c (effDefault c) stdin (sched.drop 3) "" =
          (.err e, r.2) := by rw [hcl, ho]
      obtain ⟨i1, i2, -⟩ := lineLoop_err_shape c (effDefault c) stdin
        (sched.drop 3) "" e r.2 hc
      constructor
      · rw [hlen, ← getD_drop]
        exact i1
      · intro j hj
        rw [hlen] at hj
        rcases Nat.lt_or_ge j 3 with hj3 | hj3
        · exact hg j hj3
        · obtain ⟨k, rfl⟩ := Nat.exists_eq_add_of_le hj3
          rw [← getD_drop]
          exact i2 k (by omega)
    · have hc : charLoop c ti (sched.drop 3) = (.err e, r.2) := by
        rw [hcl, ho]
      obtain ⟨i1, i2, -⟩ := charLoop_err_shape c ti (sched.drop 3) e r.2 hc
      constructor
      · rw [hlen, ← getD_drop]
        exact i1
      · intro j hj
        rw [hlen] at hj
        rcases Nat.lt_or_ge j 3 with hj3 | hj3
        · exact hg j hj3
        · obtain ⟨k, rfl⟩ := Nat.exists_eq_add_of_le hj3
          rw [← getD_drop]
          exact i2 k (by omega)

/-- C7 (confirmed): if a terminal or renderer operation fails with error
`e`, `interact_on` returns exactly that error immediately — the trace
stops at the failing operation, every earlier operation succeeded, and
the error value is passed through untranslated; and with no scheduled
I/O failure no input sequence whatsoever can make `interact_on` return
an error — invalid input is never an error condition. -/
theorem confirm_C7 :
    (∀ (c : Confirm) (sched : List (Option IOErr)) (stdin : List String)
       (ti : List Char) (e : IOErr) (tr : List TermOp),
       interact_on c sched stdin ti = (.err e, tr) →
       sched.getD tr.length none = some e ∧
         ∀ j < tr.length, sched.getD j none = none) ∧
    (∀ (c : Confirm) (stdin : List String) (ti : List Char) (e : IOErr)
       (tr : List TermOp), interact_on c [] stdin ti ≠ (.err e, tr)) := by
  constructor
  · exact fun c sched stdin ti e tr h =>
      interact_err_sched c sched stdin ti e tr h
  · intro c stdin ti e tr h
    have := (interact_err_sched c [] stdin ti e tr h).1
    simp at this

/-- C7 witness: a failure scheduled at the very first operation is
returned as-is with an empty trace. -/
theorem confirm_C7_witness :
    ([some 5] : List (Option IOErr)).getD
        ([] : List TermOp).length none = some 5 ∧
      ∀ j < ([] : List TermOp).length,
        ([some 5] : List (Option IOErr)).getD j none = none :=
  confirm_C7.1 Confirm.new [some 5] [] [] 5 [] (by decide)

/-- C8 (confirmed): every setter overwrites its single field, the last
value supplied wins (setting `a` then `b` equals setting `b` once), and
no setter changes any other field. -/
theorem confirm_C8 :
    (∀ (c : Confirm) (a b : String),
       (c.with_prompt a).with_prompt b = c.with_prompt b) ∧
    (∀ (c : Confirm) (a b : Bool),
       (c.set_default a).set_default b = c.set_default b) ∧
    (∀ (c : Confirm) (a b : Bool),
       (c.set_show_default a).set_show_default b = c.set_show_default b) ∧
    (∀ (c : Confirm) (a b : Bool),
       (c.set_disable_default a).set_disable_default b =
         c.set_disable_default b) ∧
    (∀ (c : Confirm) (a b : Bool),
       (c.set_wait_for_newline a).set_wait_for_newline b =
         c.set_wait_for_newline b) ∧
    (∀ (c : Confirm) (a : String),
       (c.with_prompt a).prompt = a ∧
       (c.with_prompt a).default = c.default ∧
       (c.with_prompt a).show_default = c.show_default ∧
       (c.with_prompt a).disable_default = c.disable_default ∧
       (c.with_prompt a).wait_for_newline = c.wait_for_newline) ∧
    (∀ (c : Confirm) (a : Bool),
       (c.set_default a).default = a ∧
       (c.set_default a).prompt = c.prompt ∧
       (c.set_default a).show_default = c.show_default ∧
       (c.set_default a).disable_default = c.disable_default ∧
       (c.set_default a).wait_for_newline = c.wait_for_newline) ∧
    (∀ (c : Confirm) (a : Bool),
       (c.set_show_default a).show_default = a ∧
       (c.set_show_default a).prompt = c.prompt ∧
       (c.set_show_default a).default = c.default ∧
       (c.set_show_default a).disable_default = c.disable_default ∧
       (c.set_show_default a).wait_for_newline = c.wait_for_newline) ∧
    (∀ (c : Confirm) (a : Bool),
       (c.set_disable_default a).disable_default = a ∧
       (c.set_disable_default a).prompt = c.prompt ∧
       (c.set_disable_default a).default = c.default ∧
       (c.set_disable_default a).show_default = c.show_default ∧
       (c.set_disable_default a).wait_for_newline = c.wait_for_newline) ∧
    (∀ (c : Confirm) (a : Bool),
       (c.set_wait_for_newline a).wait_for_newline = a ∧
       (c.set_wait_for_newline a).prompt = c.prompt ∧
       (c.set_wait_for_newline a).default = c.default ∧
       (c.set_wait_for_newline a).show_default = c.show_default ∧
       (c.set_wait_for_newline a).disable_default = c.disable_default) :=
  ⟨fun _ _ _ => rfl, fun _ _ _ => rfl, fun _ _ _ => rfl, fun _ _ _ => rfl,
   fun _ _ _ => rfl,
   fun _ _ => ⟨rfl, rfl, rfl, rfl, rfl⟩,
   fun _ _ => ⟨rfl, rfl, rfl, rfl, rfl⟩,
   fun _ _ => ⟨rfl, rfl, rfl, rfl, rfl⟩,
   fun _ _ => ⟨rfl, rfl, rfl, rfl, rfl⟩,
   fun _ _ => ⟨rfl, rfl, rfl, rfl, rfl⟩⟩

/-- Any run of invalid lines in front of the input does not change the
line-buffered loop's outcome (the buffer is cleared on every retry). -/
theorem lineLoop_invalid_prefix (c : Confirm) (d : Option Bool) :
    ∀ (bad rest : List String), (∀ l ∈ bad, lineClass c l = none) →
      (lineLoop c d (bad ++ rest) [] "").1 =
        (lineLoop c d rest [] "").1 := by
  intro bad
  induction bad with
  | nil => intro rest _; rfl
  | cons l bs ih =>
    intro rest hbad
    rw [List.cons_append, lineLoop_nil_cons, hbad l (by simp)]
    simpa using ih rest fun x hx => hbad x (List.mem_cons_of_mem _ hx)

/-- C9 (confirmed): in line-buffered mode the buffer is cleared before
every retry, so each iteration classifies only the line it just read:
any number of previously rejected lines neither concatenates with nor
otherwise influences the classification of later lines or the final
outcome. -/
theorem confirm_C9 (c : Confirm) (bad rest : List String) (ti : List Char)
    (hw : c.wait_for_newline = true)
    (hbad : ∀ l ∈ bad, lineClass c l = none) :
    (interact_on c [] (bad ++ rest) ti).1 =
      (interact_on c [] rest ti).1 := by
  rw [interact_nil_line c (bad ++ rest) ti hw, interact_nil_line c rest ti hw]
  exact lineLoop_invalid_prefix c (effDefault c) bad rest hbad

/-- C9 witness: two rejected lines before a valid one. -/
theorem confirm_C9_witness :
    (interact_on { Confirm.new with wait_for_newline := true }
       [] (["zz", "??"] ++ ["no"]) []).1 =
      (interact_on { Confirm.new with wait_for_newline := true }
       [] ["no"] []).1 :=
  confirm_C9 { Confirm.new with wait_for_newline := true } ["zz", "??"]
    ["no"] [] rfl (by decide)

/-- C10, counterexample: if the very last flush (the one after a
successful `show_cursor`) fails, `interact_on` returns the error even
though `show_cursor` has been called.  This refutes the claim that an
I/O error occurring after the cursor was hidden is always propagated
without `show_cursor` having been called. -/
theorem confirm_C10_counterexample :
    interact_on Confirm.new
        [none, none, none, none, none, none, none, some 7] [] ['y'] =
      (.err 7,
       [.confirmPrompt "" (some true), .hideCursor, .flush,
        .termReadChar 'y', .clearLine, .confirmPromptSelection "" true,
        .showCursor]) ∧
    .showCursor ∈ (interact_on Confirm.new
        [none, none, none, none, none, none, none, some 7] [] ['y']).2 := by
  decide

/-- C10 (amended): on an error return `interact_on` performs no recovery
call of `show_cursor`: either `show_cursor` was never performed (so the
cursor is left hidden), or it had just succeeded and the failing
operation was the final flush, making `show_cursor` the last operation
performed.  Cursor restoration is guaranteed only on successful
returns. -/
theorem confirm_C10 (c : Confirm) (sched : List (Option IOErr))
    (stdin : List String) (ti : List Char) (e : IOErr) (tr : List TermOp)
    (h : interact_on c sched stdin ti = (.err e, tr)) :
    .showCursor ∉ tr ∨
      ∃ t', tr = t' ++ [.showCursor] ∧ .showCursor ∉ t' := by
  rcases interact_split c sched stdin ti _ _ h with
    ⟨e', -, hre⟩ | ⟨r, ho, htr, -, hbr⟩
  · left
    intro hmem
    have := runOps_mem _ sched _ (by rw [hre]; exact hmem)
    simp at this
  · rcases hbr with ⟨-, hcl⟩ | ⟨-, hcl⟩
    · have hc : lineLoop c (effDefault c) stdin (sched.drop 3) "" =
          (.err e, r.2) := by rw [hcl, ho]
      obtain ⟨-, -, i3⟩ := lineLoop_err_shape c (effDefault c) stdin
        (sched.drop 3) "" e r.2 hc
      rcases i3 with i3 | ⟨t', ht', hnt⟩
      · left
        rw [htr]
        intro hmem
        rcases List.mem_append.mp hmem with h1 | h1
        · simp at h1
        · exact i3 h1
      · right
        refine ⟨[.confirmPrompt c.prompt (effDefault c), .hideCursor,
          .flush] ++ t', by rw [htr, ht']; simp, ?_⟩
        intro hmem
        rcases List.mem_append.mp hmem with h1 | h1
        · simp at h1
        · exact hnt h1
    · have hc : charLoop c ti (sched.drop 3) = (.err e, r.2) := by
        rw [hcl, ho]
      obtain ⟨-, -, i3⟩ := charLoop_err_shape c ti (sched.drop 3) e r.2 hc
      rcases i3 with i3 | ⟨t', ht', hnt⟩
      · left
        rw [htr]
        intro hmem
        rcases List.mem_append.mp hmem with h1 | h1
        · simp at h1
        · exact i3 h1
      · right
        refine ⟨[.confirmPrompt c.prompt (effDefault c), .hideCursor,
          .flush] ++ t', by rw [htr, ht']; simp, ?_⟩
        intro hmem
        rcases List.mem_append.mp hmem with h1 | h1
        · simp at h1
        · exact hnt h1

/-- C10 witness: a failing read leaves the cursor hidden. -/
theorem confirm_C10_witness :
    .showCursor ∉ ([.confirmPrompt "" (some true), .hideCursor, .flush]
        : List TermOp) ∨
      ∃ t', ([.confirmPrompt "" (some true), .hideCursor, .flush]
          : List TermOp) = t' ++ [.showCursor] ∧ .showCursor ∉ t' :=
  confirm_C10 Confirm.new [none, none, none, some 3] [] ['y'] 3
    [.confirmPrompt "" (some true), .hideCursor, .flush] (by decide)
